import Mathlib

/-!
Verification development for the pg_mcp_server connection/pool registry and
schema cache.  The Go sources are shallowly embedded as executable Lean
functions: the identity resolver (`internal/utils`, `ConnectionStringToUUID`)
including a byte-level SHA-1 / UUIDv5 implementation matching
`github.com/google/uuid`, the pgx service registry
(`internal/core/databases/pgx_service.go`), the query executor
(`internal/core/databases`, `executeQueryInternal` / `rowsToMaps`) and the
schema manager (`internal/core/schemas`, `LoadSchema` and the cache getters).
-/

namespace PgMcp

/-- Decidable equality for `Except`, so claim statements about fallible
operations can be settled by evaluation. -/
instance {ε α : Type} [DecidableEq ε] [DecidableEq α] : DecidableEq (Except ε α) := fun a b =>
  match a, b with
  | .error e1, .error e2 =>
      if h : e1 = e2 then isTrue (by rw [h]) else isFalse (by intro hc; cases hc; exact h rfl)
  | .ok v1, .ok v2 =>
      if h : v1 = v2 then isTrue (by rw [h]) else isFalse (by intro hc; cases hc; exact h rfl)
  | .error _, .ok _ => isFalse (by intro hc; cases hc)
  | .ok _, .error _ => isFalse (by intro hc; cases hc)

/-! ## Modular-arithmetic helpers for 32-bit words (machine integers are
modelled as `Nat` reduced mod `2^32`). -/

def M32 : Nat := 4294967296

/-- Rotate a 32-bit word left by `k` bits (`n < 2^32` expected). -/
def rotl32 (k n : Nat) : Nat :=
  ((n <<< k) % M32) ||| (n >>> (32 - k))

/-! ## SHA-1 (FIPS 180-4), byte-level, as used by `uuid.NewSHA1`. -/

/-- SHA-1 round function `f_t`. -/
def sha1F (i b c d : Nat) : Nat :=
  if i < 20 then (b &&& c) ||| ((b ^^^ 4294967295) &&& d)
  else if i < 40 then b ^^^ c ^^^ d
  else if i < 60 then (b &&& c) ||| (b &&& d) ||| (c &&& d)
  else b ^^^ c ^^^ d

/-- SHA-1 round constant `K_t`. -/
def sha1K (i : Nat) : Nat :=
  if i < 20 then 1518500249
  else if i < 40 then 1859775393
  else if i < 60 then 2400959708
  else 3395469782

/-- Big-endian 8-byte encoding of a length in bits. -/
def be64 (n : Nat) : List Nat :=
  [(n >>> 56) % 256, (n >>> 48) % 256, (n >>> 40) % 256, (n >>> 32) % 256,
   (n >>> 24) % 256, (n >>> 16) % 256, (n >>> 8) % 256, n % 256]

/-- Big-endian 4-byte encoding of a 32-bit word. -/
def be32 (n : Nat) : List Nat :=
  [(n >>> 24) % 256, (n >>> 16) % 256, (n >>> 8) % 256, n % 256]

/-- SHA-1 message padding: `0x80`, zeros to 56 mod 64, 64-bit bit length. -/
def sha1Pad (msg : List Nat) : List Nat :=
  let ml := msg.length
  let k := (64 + 56 - ((ml + 1) % 64)) % 64
  msg ++ [128] ++ List.replicate k 0 ++ be64 (8 * ml)

/-- Split a byte list into 64-byte chunks (`fuel` bounds the recursion). -/
def chunks64Go : Nat → List Nat → List (List Nat)
  | 0, _ => []
  | _, [] => []
  | n + 1, l => l.take 64 :: chunks64Go n (l.drop 64)

def chunks64 (l : List Nat) : List (List Nat) :=
  chunks64Go (l.length / 64 + 1) l

/-- Combine bytes into big-endian 32-bit words. -/
def beWords : List Nat → List Nat
  | a :: b :: c :: d :: rest => (((a * 256 + b) * 256 + c) * 256 + d) :: beWords rest
  | _ => []

/-- Message-schedule extension, keeping the accumulated words newest-first. -/
def sha1SchedGo : Nat → List Nat → List Nat
  | 0, acc => acc
  | n + 1, acc =>
      sha1SchedGo n
        ((rotl32 1 ((acc.getD 2 0) ^^^ (acc.getD 7 0) ^^^ (acc.getD 13 0) ^^^ (acc.getD 15 0))) :: acc)

/-- The 80-word SHA-1 message schedule of one 16-word chunk. -/
def sha1Schedule (w16 : List Nat) : List Nat :=
  (sha1SchedGo 64 w16.reverse).reverse

/-- The five 32-bit working registers of SHA-1. -/
structure Sha1St where
  a : Nat
  b : Nat
  c : Nat
  d : Nat
  e : Nat
deriving Repr, DecidableEq

def sha1Init : Sha1St :=
  ⟨1732584193, 4023233417, 2562383102, 271733878, 3285377520⟩

/-- One SHA-1 round: `iw` is the pair (round index, schedule word). -/
def sha1Round (st : Sha1St) (iw : Nat × Nat) : Sha1St :=
  let temp := (rotl32 5 st.a + sha1F iw.1 st.b st.c st.d + st.e + sha1K iw.1 + iw.2) % M32
  ⟨temp, st.a, rotl32 30 st.b, st.c, st.d⟩

/-- Process one 64-byte chunk. -/
def sha1Chunk (h : Sha1St) (chunk : List Nat) : Sha1St :=
  let ws := sha1Schedule (beWords chunk)
  let f := ((List.range 80).zip ws).foldl sha1Round h
  ⟨(h.a + f.a) % M32, (h.b + f.b) % M32, (h.c + f.c) % M32,
   (h.d + f.d) % M32, (h.e + f.e) % M32⟩

/-- SHA-1 digest (20 bytes) of a byte list. -/
def sha1 (msg : List Nat) : List Nat :=
  let f := (chunks64 (sha1Pad msg)).foldl sha1Chunk sha1Init
  be32 f.a ++ be32 f.b ++ be32 f.c ++ be32 f.d ++ be32 f.e

/-! ## UUID version 5, mirroring `github.com/google/uuid.NewSHA1`. -/

/-- UTF-8 encoding of one character, as Go's `[]byte(string)` produces. -/
def utf8Bytes (c : Char) : List Nat :=
  let n := c.toNat
  if n < 128 then [n]
  else if n < 2048 then [192 + n / 64, 128 + n % 64]
  else if n < 65536 then [224 + n / 4096, 128 + (n / 64) % 64, 128 + n % 64]
  else [240 + n / 262144, 128 + (n / 4096) % 64, 128 + (n / 64) % 64, 128 + n % 64]

/-- Byte representation of a Go string. -/
def strBytes (s : String) : List Nat :=
  (s.data.map utf8Bytes).flatten

def hexDigit (n : Nat) : Char :=
  if n < 10 then Char.ofNat (48 + n) else Char.ofNat (87 + n)

def byteHex (b : Nat) : List Char :=
  [hexDigit (b / 16), hexDigit (b % 16)]

def bytesHex (bs : List Nat) : String :=
  String.mk ((bs.map byteHex).flatten)

/-- `uuid.NewSHA1`: first 16 bytes of `SHA1(space ∥ data)` with the version
field forced to 5 and the variant field to RFC 4122. -/
def uuidNewSHA1 (space data : List Nat) : List Nat :=
  ((sha1 (space ++ data)).take 16).mapIdx
    (fun i b => if i = 6 then (b &&& 15) ||| 80 else if i = 8 then (b &&& 63) ||| 128 else b)

/-- Canonical `8-4-4-4-12` string form of a 16-byte UUID. -/
def uuidFormat (bs : List Nat) : String :=
  bytesHex (bs.take 4) ++ "-" ++ bytesHex ((bs.drop 4).take 2) ++ "-" ++
  bytesHex ((bs.drop 6).take 2) ++ "-" ++ bytesHex ((bs.drop 8).take 2) ++ "-" ++
  bytesHex (bs.drop 10)

/-- `uuid.NameSpaceURL` (6ba7b811-9dad-11d1-80b4-00c04fd430c8) as bytes. -/
def nameSpaceURL : List Nat :=
  [107, 167, 184, 17, 157, 173, 17, 209, 128, 180, 0, 192, 79, 212, 48, 200]

/-- `postgresqlNamespace = uuid.NewSHA1(uuid.NameSpaceURL, []byte("mcp.cc.com.postgresql"))`. -/
def postgresqlNamespace : List Nat :=
  uuidNewSHA1 nameSpaceURL (strBytes "mcp.cc.com.postgresql")

/-! ## A model of Go's `net/url.Parse`, restricted to escape-free URLs.

The repository only hands `url.Parse` percent-escape-free strings, so the
model treats `%` as an ordinary character and does not model bracketed IPv6
hosts; all other behaviour follows Go's `net/url`: scheme recognition,
fragment/query stripping, authority splitting at the last `@`, username up to
the first `:`, host/port splitting at the last `:` with a digits-only port
check, and the control-character and first-segment-colon error cases. -/

def isAlphaCh (c : Char) : Bool :=
  (97 ≤ c.toNat && c.toNat ≤ 122) || (65 ≤ c.toNat && c.toNat ≤ 90)

def isDigitCh (c : Char) : Bool :=
  48 ≤ c.toNat && c.toNat ≤ 57

/-- Split a character list at the last occurrence of `c`:
`some (before, after)` with `c ∉ after`, or `none` if `c` does not occur. -/
def splitAtLast (c : Char) (l : List Char) : Option (List Char × List Char) :=
  let after := l.reverse.takeWhile (fun x => x != c)
  if after.length = l.length then none
  else some (l.take (l.length - after.length - 1), after.reverse)

/-- Go `getScheme`: longest alpha-led scheme prefix before a `:`.
Returns (scheme, rest); `([], orig)` when the string has no scheme. -/
def getSchemeAux (orig : List Char) (acc : List Char) : List Char → Except String (List Char × List Char)
  | [] => .ok ([], orig)
  | c :: rest =>
      if isAlphaCh c then getSchemeAux orig (c :: acc) rest
      else if isDigitCh c || c = '+' || c = '-' || c = '.' then
        if acc = [] then .ok ([], orig) else getSchemeAux orig (c :: acc) rest
      else if c = ':' then
        if acc = [] then .error "missing protocol scheme" else .ok (acc.reverse, rest)
      else .ok ([], orig)

def containsCTL (l : List Char) : Bool :=
  l.any (fun c => c.toNat < 32 || c.toNat = 127)

/-- Go `validUserinfo` character check. -/
def isUserinfoChar (c : Char) : Bool :=
  isAlphaCh c || isDigitCh c ||
  c = '-' || c = '.' || c = '_' || c = ':' || c = '~' || c = '!' || c = '$' ||
  c = '&' || c = '\'' || c = '(' || c = ')' || c = '*' || c = '+' || c = ',' ||
  c = ';' || c = '=' || c = '%' || c = '@'

/-- Go `parseHost` (non-bracketed): split host and port at the last `:`,
requiring a digits-only (possibly empty) port. -/
def parseHostGo (host : List Char) : Except String (List Char × List Char) :=
  if host.headD ' ' = '[' then .error "bracketed host not modelled"
  else
    match splitAtLast ':' host with
    | none => .ok (host, [])
    | some (before, after) =>
        if after.all isDigitCh then .ok (before, after)
        else .error "invalid port"

/-- The components of a parsed URL the repository reads.  `username = none`
means the authority had no userinfo (Go's `parsed.User == nil`); for opaque
URLs Go leaves `Path` empty, which the model mirrors. -/
structure GoURL where
  scheme : String
  username : Option String
  hostname : String
  port : String
  path : String
deriving Repr, DecidableEq

def goURLParse (s : String) : Except String GoURL :=
  let l := s.data
  if containsCTL l then .error "net/url: invalid control character in URL"
  else
    match getSchemeAux l [] l with
    | .error e => .error e
    | .ok (scheme, rest0) =>
        let rest1 := rest0.takeWhile (fun c => c != '#')
        let rest2 := rest1.takeWhile (fun c => c != '?')
        if rest2.take 2 = ['/', '/'] then
          let afterSlashes := rest2.drop 2
          let authority := afterSlashes.takeWhile (fun c => c != '/')
          let pathPart := afterSlashes.dropWhile (fun c => c != '/')
          match splitAtLast '@' authority with
          | none =>
              match parseHostGo authority with
              | .error e => .error e
              | .ok (h, p) =>
                  .ok ⟨String.mk scheme, none, String.mk h, String.mk p, String.mk pathPart⟩
          | some (userinfo, hostport) =>
              if userinfo.all isUserinfoChar then
                match parseHostGo hostport with
                | .error e => .error e
                | .ok (h, p) =>
                    let uname := userinfo.takeWhile (fun c => c != ':')
                    .ok ⟨String.mk scheme, some (String.mk uname), String.mk h,
                         String.mk p, String.mk pathPart⟩
              else .error "net/url: invalid userinfo"
        else
          if scheme != [] && rest2.headD '/' != '/' then
            .ok ⟨String.mk scheme, none, "", "", ""⟩
          else if scheme = [] && (rest2.takeWhile (fun c => c != '/')).contains ':' then
            .error "first path segment in URL cannot contain colon"
          else
            .ok ⟨String.mk scheme, none, "", "", String.mk rest2⟩

/-! ## Go `strings` helpers used by the service. -/

/-- Go `unicode.IsSpace` (White_Space property). -/
def goIsSpace (c : Char) : Bool :=
  (9 ≤ c.toNat && c.toNat ≤ 13) || c = ' ' || c.toNat = 133 || c.toNat = 160 ||
  c.toNat = 5760 || (8192 ≤ c.toNat && c.toNat ≤ 8202) ||
  c.toNat = 8232 || c.toNat = 8233 || c.toNat = 8239 || c.toNat = 8287 || c.toNat = 12288

/-- Go `strings.TrimSpace`. -/
def goTrimSpace (s : String) : String :=
  String.mk (((s.data.dropWhile goIsSpace).reverse.dropWhile goIsSpace).reverse)

/-- Go `strings.HasPrefix s pre`. -/
def strStarts (s pre : String) : Bool :=
  s.data.take pre.data.length == pre.data

/-- Go `strings.TrimPrefix s "/"`: remove one leading slash if present. -/
def trimOneSlash (s : String) : String :=
  match s.data with
  | '/' :: rest => String.mk rest
  | _ => s

/-! ## The identity resolver (`internal/utils`, `ConnectionStringToUUID`). -/

/-- The canonical `user@host:port/db` string `ConnectionStringToUUID` builds
from a parsed URL: username without password (empty when absent), port
defaulted to 5432, path with one leading slash removed defaulted to
`postgres`. -/
def canonicalString (u : GoURL) : String :=
  let user := (u.username).getD ""
  let port := if u.port = "" then "5432" else u.port
  let dbName0 := trimOneSlash u.path
  let dbName := if dbName0 = "" then "postgres" else dbName0
  user ++ "@" ++ u.hostname ++ ":" ++ port ++ "/" ++ dbName

/-- `utils.ConnectionStringToUUID`: prepend `postgresql://` when that exact
prefix is absent, parse, canonicalise, and take the namespaced UUIDv5. -/
def connectionStringToUUID (connectionString : String) : Except String String :=
  let cs := if strStarts connectionString "postgresql://" then connectionString
            else "postgresql://" ++ connectionString
  match goURLParse cs with
  | .error e => .error ("解析连接字符串失败: " ++ e)
  | .ok u => .ok (uuidFormat (uuidNewSHA1 postgresqlNamespace (strBytes (canonicalString u))))

/-- `normalizeConnectionString` from `pgx_service.go`. -/
def normalizeConnectionString (connString : String) : Except String String :=
  let trimmed := goTrimSpace connString
  if trimmed = "" then .error "连接字符串不能为空"
  else if !(strStarts trimmed "postgresql://") && !(strStarts trimmed "postgres://") then
    match goURLParse ("postgresql://" ++ trimmed) with
    | .error _ =>
        match goURLParse trimmed with
        | .error e => .error ("连接字符串格式无效: " ++ e)
        | .ok _ => .ok trimmed
    | .ok _ => .ok ("postgresql://" ++ trimmed)
  else
    match goURLParse trimmed with
    | .error e => .error ("连接字符串格式无效: " ++ e)
    | .ok _ => .ok trimmed

/-! ## Go maps, modelled as unordered association lists.

Go's `map` type is unordered, so the model keeps one entry per key and
exposes contents only through `mapLookup`; `mapInsert` replaces any existing
entry for the key (Go `m[k] = v`) and `mapErase` removes it (Go `delete`). -/

def mapErase {α : Type} (m : List (String × α)) (k : String) : List (String × α) :=
  m.filter (fun p => p.1 != k)

def mapInsert {α : Type} (m : List (String × α)) (k : String) (v : α) : List (String × α) :=
  (k, v) :: mapErase m k

def mapLookup {α : Type} (m : List (String × α)) (k : String) : Option α :=
  (m.find? (fun p => p.1 == k)).map (fun p => p.2)

/-! ## The pgx service registry (`pgx_service.go`).

A `PoolModel` stands for a `pgxpool.Pool`, remembering the connection string
it was built from.  Pool construction (`pgxpool.ParseConfig` +
`NewWithConfig`) succeeds or fails depending on the external database, so the
model takes the successful branch; the claims settled against `getPool`
concern the identity-lookup path, not connector failures.  Locking
(`mapMutex`/`poolMutex`) serialises the Go code; the model is its sequential
semantics, with the double-checked re-probes collapsing to the single probe. -/

structure PoolModel where
  connString : String
deriving Repr, DecidableEq

structure ServiceState where
  connMap : List (String × String)
  reverseMap : List (String × String)
  pools : List (String × PoolModel)
deriving Repr, DecidableEq

def initialServiceState : ServiceState := ⟨[], [], []⟩

/-- `RegisterConnection` (the async ping of an existing pool does not change
state and is dropped). -/
def registerConnection (st : ServiceState) (connString : String) :
    ServiceState × Except String String :=
  match normalizeConnectionString connString with
  | .error e => (st, .error ("无效的连接字符串格式: " ++ e))
  | .ok ncs =>
      match mapLookup st.reverseMap ncs with
      | some existing => (st, .ok existing)
      | none =>
          match connectionStringToUUID ncs with
          | .error e => (st, .error ("无效的连接字符串格式: " ++ e))
          | .ok newId =>
              ({ st with
                  connMap := mapInsert st.connMap newId ncs,
                  reverseMap := mapInsert st.reverseMap ncs newId }, .ok newId)

/-- `DisconnectConnection`: removes both map entries, then closes and removes
the pool if present. -/
def disconnectConnection (st : ServiceState) (connID : String) :
    ServiceState × Except String Unit :=
  match mapLookup st.connMap connID with
  | none => (st, .error "未知的 connID")
  | some connString =>
      ({ connMap := mapErase st.connMap connID,
         reverseMap := mapErase st.reverseMap connString,
         pools := mapErase st.pools connID }, .ok ())

/-- `GetPool`: resolve the connection string via `connMap`, return a cached
pool, or construct and store a fresh one. -/
def getPool (st : ServiceState) (connID : String) :
    ServiceState × Except String PoolModel :=
  match mapLookup st.connMap connID with
  | none => (st, .error ("未知的 connID: " ++ connID))
  | some connString =>
      match mapLookup st.pools connID with
      | some pool => (st, .ok pool)
      | none =>
          let newPool : PoolModel := ⟨connString⟩
          ({ st with pools := mapInsert st.pools connID newPool }, .ok newPool)

/-- `CloseAll`: closes every pool and replaces all three maps by fresh empty
ones; it always returns nil. -/
def closeAll (_st : ServiceState) : ServiceState × Except String Unit :=
  (⟨[], [], []⟩, .ok ())

/-! Operation sequences over the registry, for the registry-invariant claim. -/

inductive RegOp where
  | register (connString : String)
  | disconnect (connID : String)
  | closeAllOp
deriving Repr, DecidableEq

def applyOp (st : ServiceState) : RegOp → ServiceState
  | .register cs => (registerConnection st cs).1
  | .disconnect cid => (disconnectConnection st cid).1
  | .closeAllOp => (closeAll st).1

def runOps (st : ServiceState) (ops : List RegOp) : ServiceState :=
  ops.foldl applyOp st

/-- Forward half of the claimed registry invariant: every `connMap` entry has
a matching `reverseMap` entry. -/
def mapsInverseFwd (st : ServiceState) : Prop :=
  ∀ i s, mapLookup st.connMap i = some s → mapLookup st.reverseMap s = some i

/-- Backward half: every `reverseMap` entry has a matching `connMap` entry. -/
def mapsInverseBwd (st : ServiceState) : Prop :=
  ∀ s i, mapLookup st.reverseMap s = some i → mapLookup st.connMap i = some s

/-! ## Schema structures (`internal/core/schemas/types.go`). -/

structure ForeignKeyInfo where
  constraintName : String
  columns : List String
  referencedSchema : String
  referencedTable : String
  referencedColumns : List String
  description : String
deriving Repr, DecidableEq

structure IndexInfo where
  indexName : String
  indexType : String
  columns : List String
  isUnique : Bool
  isPrimary : Bool
  indexDefinition : String
  description : String
deriving Repr, DecidableEq

structure ColumnInfo where
  name : String
  type : String
  isNullable : Bool
  defaultValue : Option String
  description : String
  constraints : List String
deriving Repr, DecidableEq

structure TableInfo where
  name : String
  description : String
  rowCount : Int
  columns : List ColumnInfo
  indexes : List IndexInfo
  foreignKeys : List ForeignKeyInfo
deriving Repr, DecidableEq

structure SchemaInfo where
  name : String
  description : String
  tables : List TableInfo
deriving Repr, DecidableEq

structure DatabaseInfo where
  schemas : List SchemaInfo
deriving Repr, DecidableEq

/-! ## The schema manager (`LoadSchema` and the cache getters).

The five catalog queries the crawl issues are external database I/O, so they
are supplied by a `CrawlOracle` recording each call's outcome; rows are
modelled after the `dbString`/`dbInt64` decoding step (the claims against
`LoadSchema` concern its failure policy and cache handling, not Go's
`any`-decoding).  A `fetchSchemas` row is (schema_name, description); a
`fetchTables` row is (table_name, description, row_count). -/

structure CrawlOracle where
  fetchSchemas : Except String (List (String × String))
  fetchTables : String → Except String (List (String × String × Int))
  fetchColumns : String → String → Except String (List ColumnInfo)
  fetchIndexes : String → String → Except String (List IndexInfo)
  fetchForeignKeys : String → String → Except String (List ForeignKeyInfo)

/-- Lock and I/O events of one `LoadSchema` run, in program order, used to
settle the lock-extent claim. -/
inductive CrawlEvent where
  | lockAcquire
  | lockRelease
  | dbQuery (name : String)
  | cacheSwap
deriving Repr, DecidableEq

/-- The manager's cache field: a possibly-nil pointer to the current
snapshot.  `NewManager` initialises it to an empty (non-nil) snapshot. -/
structure ManagerState where
  cache : Option DatabaseInfo
deriving Repr, DecidableEq

def initialManagerState : ManagerState := ⟨some ⟨[]⟩⟩

/-- Body of `LoadSchema`'s inner loop for one table: on a column-fetch
failure the table is skipped (`continue`); index or foreign-key failures
leave that sub-section empty but keep the table. -/
def crawlTable (o : CrawlOracle) (schemaName : String) (t : String × String × Int) :
    Option TableInfo × List CrawlEvent :=
  match o.fetchColumns schemaName t.1 with
  | .error _ => (none, [CrawlEvent.dbQuery "fetchColumns"])
  | .ok cols =>
      let idxs := match o.fetchIndexes schemaName t.1 with
        | .error _ => []
        | .ok l => l
      let fks := match o.fetchForeignKeys schemaName t.1 with
        | .error _ => []
        | .ok l => l
      (some ⟨t.1, t.2.1, t.2.2, cols, idxs, fks⟩,
       [CrawlEvent.dbQuery "fetchColumns", CrawlEvent.dbQuery "fetchIndexes",
        CrawlEvent.dbQuery "fetchForeignKeys"])

/-- Body of `LoadSchema`'s outer loop for one schema: on a table-enumeration
failure the whole schema is skipped (`continue`) and the crawl goes on. -/
def crawlSchema (o : CrawlOracle) (s : String × String) :
    Option SchemaInfo × List CrawlEvent :=
  match o.fetchTables s.1 with
  | .error _ => (none, [CrawlEvent.dbQuery "fetchTables"])
  | .ok tables =>
      let results := tables.map (crawlTable o s.1)
      (some ⟨s.1, s.2, results.filterMap (fun r => r.1)⟩,
       CrawlEvent.dbQuery "fetchTables" :: (results.map (fun r => r.2)).flatten)

/-- `LoadSchema`: takes the cache's write lock for the whole run (line 53 of
the source acquires, the deferred unlock runs at return), enumerates schemas
(failure ⇒ error return, cache untouched), walks every schema and table, and
swaps the cache reference before returning.  Returns the new manager state,
the returned error value, and the run's event trace. -/
def loadSchema (o : CrawlOracle) (st : ManagerState) :
    ManagerState × Except String Unit × List CrawlEvent :=
  match o.fetchSchemas with
  | .error e =>
      (st, .error ("获取 Schema 列表失败: " ++ e),
       [CrawlEvent.lockAcquire, CrawlEvent.dbQuery "fetchSchemas", CrawlEvent.lockRelease])
  | .ok [] =>
      (⟨some ⟨[]⟩⟩, .ok (),
       [CrawlEvent.lockAcquire, CrawlEvent.dbQuery "fetchSchemas",
        CrawlEvent.cacheSwap, CrawlEvent.lockRelease])
  | .ok schemas =>
      let results := schemas.map (crawlSchema o)
      let newCache : DatabaseInfo := ⟨results.filterMap (fun r => r.1)⟩
      (⟨some newCache⟩, .ok (),
       CrawlEvent.lockAcquire :: CrawlEvent.dbQuery "fetchSchemas" ::
         ((results.map (fun r => r.2)).flatten ++
          [CrawlEvent.cacheSwap, CrawlEvent.lockRelease]))

/-- `GetDatabaseInfo`: found only when the cache is non-nil and non-empty. -/
def getDatabaseInfo (st : ManagerState) : Option DatabaseInfo × Bool :=
  match st.cache with
  | none => (none, false)
  | some c => if c.schemas.length = 0 then (none, false) else (some c, true)

/-- `GetSchemaInfo`: linear scan by name over the cached snapshot. -/
def getSchemaInfo (st : ManagerState) (schemaName : String) : Option SchemaInfo × Bool :=
  match st.cache with
  | none => (none, false)
  | some c =>
      match c.schemas.find? (fun s => s.name == schemaName) with
      | some s => (some s, true)
      | none => (none, false)

/-- `GetTableInfo`, in terms of `GetSchemaInfo`. -/
def getTableInfo (st : ManagerState) (schemaName tableName : String) :
    Option TableInfo × Bool :=
  match getSchemaInfo st schemaName with
  | (some s, true) =>
      (match s.tables.find? (fun t => t.name == tableName) with
       | some t => (some t, true)
       | none => (none, false))
  | _ => (none, false)

/-! ## The query executor (`executeQueryInternal` / `rowsToMaps`).

Result values are Go `any`s, modelled by `GoValue`.  `RowsData` is the result
set as pgx hands it over: field descriptions in driver order, the value list
of each row (per-row `rows.Values()` decoding is taken as succeeding, which
is the successful-call path the claim quantifies over), and the terminal
iteration error `rows.Err()`. -/

inductive GoValue where
  | vNull
  | vInt (n : Int)
  | vStr (s : String)
  | vBool (b : Bool)
deriving Repr, DecidableEq

structure RowsData where
  fields : List String
  rows : List (List GoValue)
  iterErr : Option String
deriving Repr, DecidableEq

/-- Inner loop of `rowsToMaps`: `rowMap[fd.Name] = values[i]` over the field
descriptions, building one Go map per row.  Defined via `zip`, which agrees
with the Go indexing whenever the row has at least as many values as there
are fields (pgx guarantees equality). -/
def rowToMap (fields : List String) (values : List GoValue) : List (String × GoValue) :=
  (fields.zip values).foldl (fun m kv => mapInsert m kv.1 kv.2) []

/-- `rowsToMaps`: materialise every row, then report `rows.Err()` if set
(the Go code returns the partial slice alongside the error; the caller
discards it, so the model returns only the error). -/
def rowsToMaps (rd : RowsData) : Except String (List (List (String × GoValue))) :=
  let results := rd.rows.map (rowToMap rd.fields)
  match rd.iterErr with
  | some e => .error ("迭代结果行时出错: " ++ e)
  | none => .ok results

/-- Outcomes of the four driver interactions of one `executeQueryInternal`
call: connection acquire, transaction begin, query, and commit. -/
structure ExecOracle where
  acquire : Except String Unit
  beginTx : Except String Unit
  query : Except String RowsData
  commit : Except String Unit

/-- `executeQueryInternal`: the `readOnly` flag only selects the transaction
access mode sent to the server and does not affect result materialisation.
Each failure path returns the wrapped original error (rollback is best
effort and changes no returned value). -/
def executeQueryInternal (o : ExecOracle) (_readOnly : Bool) :
    Except String (List (List (String × GoValue))) :=
  match o.acquire with
  | .error e => .error ("获取数据库连接失败: " ++ e)
  | .ok _ =>
      match o.beginTx with
      | .error e => .error ("开始数据库事务失败: " ++ e)
      | .ok _ =>
          match o.query with
          | .error e => .error ("数据库查询执行错误: " ++ e)
          | .ok rd =>
              match rowsToMaps rd with
              | .error e => .error ("转换查询结果失败: " ++ e)
              | .ok results =>
                  match rd.iterErr with
                  | some e => .error ("迭代查询结果时发生错误: " ++ e)
                  | none =>
                      match o.commit with
                      | .error e => .error ("提交数据库事务失败: " ++ e)
                      | .ok _ => .ok results

/-! ## Derived notions used to state the claims. -/

/-- The value of the last entry with key `k` in an entry sequence (Go map
writes are last-wins). -/
def lastValue (l : List (String × GoValue)) (k : String) : Option GoValue :=
  match l with
  | [] => none
  | kv :: t =>
      match lastValue t k with
      | some v => some v
      | none => if kv.1 = k then some kv.2 else none

/-- Scan an event trace tracking whether the cache lock is held; `true` iff
some `dbQuery` event occurs while the lock is held. -/
def queryHeldGo : Bool → List CrawlEvent → Bool
  | _, [] => false
  | _, CrawlEvent.lockAcquire :: t => queryHeldGo true t
  | _, CrawlEvent.lockRelease :: t => queryHeldGo false t
  | held, CrawlEvent.dbQuery _ :: t => held || queryHeldGo held t
  | held, CrawlEvent.cacheSwap :: t => queryHeldGo held t

def queryWhileLocked (tr : List CrawlEvent) : Bool :=
  queryHeldGo false tr

/-! Concrete oracles and states used by counterexamples and witnesses. -/

/-- Crawl whose table enumeration fails for schema `a` but succeeds (with one
column-less table `t`) for schema `b`. -/
def oracleC5 : CrawlOracle :=
  ⟨Except.ok [("a", ""), ("b", "")],
   fun s => if s = "a" then Except.error "x" else Except.ok [("t", "", 0)],
   fun _ _ => Except.ok [],
   fun _ _ => Except.ok [],
   fun _ _ => Except.ok []⟩

def colC5 : ColumnInfo := ⟨"c", "integer", false, none, "", []⟩

def idxC5 : IndexInfo := ⟨"i", "btree", ["c"], true, true, "", ""⟩

def fkC5 : ForeignKeyInfo := ⟨"f", ["c"], "s", "t4", ["c"], ""⟩

/-- One schema, four tables: `t1`'s column fetch fails, `t2`'s index fetch
fails, `t3`'s foreign-key fetch fails, `t4` fully succeeds. -/
def oracleC5b : CrawlOracle :=
  ⟨Except.ok [("s", "")],
   fun _ => Except.ok [("t1", "", 1), ("t2", "", 2), ("t3", "", 3), ("t4", "", 4)],
   fun _ t => if t = "t1" then Except.error "cols" else Except.ok [colC5],
   fun _ t => if t = "t2" then Except.error "idx" else Except.ok [idxC5],
   fun _ t => if t = "t3" then Except.error "fk" else Except.ok [fkC5]⟩

/-- Crawl whose top-level schema enumeration fails. -/
def oracleC6 : CrawlOracle :=
  ⟨Except.error "boom", fun _ => Except.ok [], fun _ _ => Except.ok [],
   fun _ _ => Except.ok [], fun _ _ => Except.ok []⟩

/-- Crawl that succeeds and finds no schemas at all. -/
def oracleC9 : CrawlOracle :=
  ⟨Except.ok [], fun _ => Except.ok [], fun _ _ => Except.ok [],
   fun _ _ => Except.ok [], fun _ _ => Except.ok []⟩

/-- Minimal successful crawl (one schema, no tables), used to exhibit the
lock-vs-I/O interleaving. -/
def oracleC7 : CrawlOracle :=
  ⟨Except.ok [("public", "")], fun _ => Except.ok [], fun _ _ => Except.ok [],
   fun _ _ => Except.ok [], fun _ _ => Except.ok []⟩

/-- A populated manager state (one schema named `s`). -/
def populatedManagerState : ManagerState := ⟨some ⟨[⟨"s", "", []⟩]⟩⟩

/-- The identity `ConnectionStringToUUID` assigns to `postgresql://u@h/db`,
i.e. UUIDv5 of the canonical string `u@h:5432/db`. -/
def idC1 : String := "3fa2cb7b-9a34-59be-99de-e06509e5fdd6"

/-- The registry state after registering `postgresql://u@h/db` from empty. -/
def stC1 : ServiceState :=
  ⟨[(idC1, "postgresql://u@h/db")], [("postgresql://u@h/db", idC1)], []⟩

/-- A result set with two driver columns both named `a` (legal in SQL:
`SELECT 1 AS a, 2 AS a`) and a single row. -/
def rowsDup : RowsData :=
  ⟨["a", "a"], [[GoValue.vInt 1, GoValue.vInt 2]], none⟩

/-- A one-column one-row result set. -/
def rowsSimple : RowsData :=
  ⟨["a"], [[GoValue.vInt 7]], none⟩

/-! ## Lemmas about the Go-map model. -/

theorem mapLookup_cons {α : Type} (p : String × α) (t : List (String × α)) (k : String) :
    mapLookup (p :: t) k = if p.1 = k then some p.2 else mapLookup t k := by
  by_cases h : p.1 = k
  · simp [mapLookup, List.find?, h]
  · have hb : (p.1 == k) = false := beq_eq_false_iff_ne.mpr h
    simp [mapLookup, List.find?, hb, h]

theorem mapErase_cons {α : Type} (p : String × α) (t : List (String × α)) (k : String) :
    mapErase (p :: t) k = if p.1 = k then mapErase t k else p :: mapErase t k := by
  by_cases h : p.1 = k <;> simp [mapErase, List.filter_cons, h]

theorem mapLookup_erase {α : Type} (m : List (String × α)) (k k' : String) :
    mapLookup (mapErase m k) k' = if k' = k then none else mapLookup m k' := by
  induction m with
  | nil => simp [mapLookup, mapErase]
  | cons p t ih =>
      rw [mapErase_cons]
      by_cases hpk : p.1 = k
      · rw [if_pos hpk, ih, mapLookup_cons]
        by_cases hkk : k' = k
        · simp [hkk]
        · have hp : ¬ p.1 = k' := by rw [hpk]; exact fun he => hkk he.symm
          simp [hkk, hp]
      · rw [if_neg hpk, mapLookup_cons, mapLookup_cons, ih]
        by_cases hpk' : p.1 = k'
        · have hkk : ¬ k' = k := fun he => hpk (by rw [hpk', he])
          simp [hpk', hkk]
        · simp [hpk']

theorem mapLookup_insert {α : Type} (m : List (String × α)) (k k' : String) (v : α) :
    mapLookup (mapInsert m k v) k' = if k' = k then some v else mapLookup m k' := by
  rw [mapInsert, mapLookup_cons]
  by_cases h : k' = k
  · simp [h]
  · have hkk : ¬ k = k' := fun he => h he.symm
    rw [if_neg hkk, mapLookup_erase]
    simp [h]

theorem mapLookup_nil {α : Type} (k : String) : mapLookup ([] : List (String × α)) k = none :=
  rfl

/-! ## Auxiliary lemmas. -/

theorem dropWhile_all_nil (p : Char → Bool) (l : List Char) (h : l.all p = true) :
    l.dropWhile p = [] := by
  induction l with
  | nil => rfl
  | cons c t ih =>
      rw [List.all_cons, Bool.and_eq_true] at h
      have ht := ih h.2
      simp [List.dropWhile, h.1, ht]

theorem goTrimSpace_all_space (cs : String) (h : cs.data.all goIsSpace = true) :
    goTrimSpace cs = "" := by
  unfold goTrimSpace
  rw [dropWhile_all_nil goIsSpace cs.data h]
  rfl

theorem foldl_mapInsert_lookup (l m : List (String × GoValue)) (k : String) :
    mapLookup (l.foldl (fun acc kv => mapInsert acc kv.1 kv.2) m) k =
      (match lastValue l k with
       | some v => some v
       | none => mapLookup m k) := by
  induction l generalizing m with
  | nil => rfl
  | cons kv t ih =>
      rw [List.foldl_cons, ih]
      cases h : lastValue t k with
      | some v => simp [lastValue, h]
      | none =>
          simp only [lastValue, h]
          rw [mapLookup_insert]
          by_cases hk : k = kv.1
          · simp [hk]
          · have hkv : ¬ kv.1 = k := fun he => hk he.symm
            simp [hk, hkv]

theorem crawlTable_events_queries (o : CrawlOracle) (sn : String) (t : String × String × Int) :
    ∀ e ∈ (crawlTable o sn t).2, ∃ n, e = CrawlEvent.dbQuery n := by
  unfold crawlTable
  cases o.fetchColumns sn t.1 with
  | error e0 =>
      intro e he
      simp at he
      exact ⟨_, he⟩
  | ok cols =>
      intro e he
      simp at he
      rcases he with h | h | h <;> exact ⟨_, h⟩

theorem crawlSchema_events_queries (o : CrawlOracle) (s : String × String) :
    ∀ e ∈ (crawlSchema o s).2, ∃ n, e = CrawlEvent.dbQuery n := by
  unfold crawlSchema
  cases o.fetchTables s.1 with
  | error e0 =>
      intro e he
      simp at he
      exact ⟨_, he⟩
  | ok tables =>
      intro e he
      simp at he
      rcases he with h | h
      · exact ⟨_, h⟩
      · rcases h with ⟨l, ⟨t1, t2, t3, hmem, rfl⟩, hel⟩
        exact crawlTable_events_queries o s.1 (t1, t2, t3) e hel

/-! Step lemmas for the registry-invariant claim. -/

theorem mapsInverseFwd_register (st : ServiceState) (cs : String)
    (h : mapsInverseFwd st) : mapsInverseFwd (registerConnection st cs).1 := by
  cases hn : normalizeConnectionString cs with
  | error e => simpa [registerConnection, hn] using h
  | ok ncs =>
      cases hr : mapLookup st.reverseMap ncs with
      | some ex => simpa [registerConnection, hn, hr] using h
      | none =>
          cases hu : connectionStringToUUID ncs with
          | error e => simpa [registerConnection, hn, hr, hu] using h
          | ok newId =>
              intro i s hc
              simp only [registerConnection, hn, hr, hu] at hc ⊢
              rw [mapLookup_insert] at hc
              rw [mapLookup_insert]
              by_cases hik : i = newId
              · subst hik
                rw [if_pos rfl] at hc
                cases hc
                rw [if_pos rfl]
              · rw [if_neg hik] at hc
                have hrs := h i s hc
                by_cases hsn : s = ncs
                · subst hsn
                  rw [hr] at hrs
                  cases hrs
                · rw [if_neg hsn]
                  exact hrs

theorem mapsInverseFwd_disconnect (st : ServiceState) (cid : String)
    (h : mapsInverseFwd st) : mapsInverseFwd (disconnectConnection st cid).1 := by
  cases hc0 : mapLookup st.connMap cid with
  | none => simpa [disconnectConnection, hc0] using h
  | some cs0 =>
      intro i s hc
      simp only [disconnectConnection, hc0] at hc ⊢
      rw [mapLookup_erase] at hc
      by_cases hi : i = cid
      · rw [if_pos hi] at hc
        cases hc
      · rw [if_neg hi] at hc
        have hrs := h i s hc
        rw [mapLookup_erase]
        by_cases hs : s = cs0
        · have h0 := h cid cs0 hc0
          have hic : i = cid := Option.some.inj ((hs ▸ hrs).symm.trans h0)
          exact absurd hic hi
        · rw [if_neg hs]
          exact hrs

theorem mapsInverseFwd_applyOp (st : ServiceState) (op : RegOp)
    (h : mapsInverseFwd st) : mapsInverseFwd (applyOp st op) := by
  cases op with
  | register cs => exact mapsInverseFwd_register st cs h
  | disconnect cid => exact mapsInverseFwd_disconnect st cid h
  | closeAllOp =>
      intro i s hc
      simp [applyOp, closeAll, mapLookup] at hc

theorem mapsInverseFwd_runOps (st : ServiceState) (ops : List RegOp)
    (h : mapsInverseFwd st) : mapsInverseFwd (runOps st ops) := by
  induction ops generalizing st with
  | nil => exact h
  | cons op t ih => exact ih _ (mapsInverseFwd_applyOp st op h)

theorem mapsInverseFwd_initial : mapsInverseFwd initialServiceState := by
  intro i s hc
  simp [initialServiceState, mapLookup] at hc

/-! ## Claim theorems. -/

/-- Claim C10: `RegisterConnection` called with an empty or whitespace-only
connection string returns an error and leaves the registry state (both maps
and the pools) unchanged. -/
theorem C10_blank_connstring_rejected (st : ServiceState) (cs : String)
    (h : cs.data.all goIsSpace = true) :
    registerConnection st cs =
      (st, Except.error ("无效的连接字符串格式: " ++ "连接字符串不能为空")) := by
  have ht := goTrimSpace_all_space cs h
  simp [registerConnection, normalizeConnectionString, ht]

/-- Witness for C10 at the whitespace-only string `" \t "` and an arbitrary
concrete state. -/
theorem C10_blank_connstring_rejected_witness :
    (" \t ".data.all goIsSpace = true) ∧
    registerConnection initialServiceState " \t " =
      (initialServiceState, Except.error ("无效的连接字符串格式: " ++ "连接字符串不能为空")) :=
  ⟨by decide, C10_blank_connstring_rejected initialServiceState " \t " (by decide)⟩

/-- Claim C6: whenever `LoadSchema` returns an error the cached snapshot
reference is unchanged, and no state makes `GetDatabaseInfo` report
`found = true` with an empty snapshot. -/
theorem C6_failed_refresh_cache_intact :
    (∀ (o : CrawlOracle) (st : ManagerState) (e : String),
        (loadSchema o st).2.1 = Except.error e → (loadSchema o st).1 = st) ∧
    (∀ st : ManagerState, (getDatabaseInfo st).2 = true →
        ∃ c : DatabaseInfo, st.cache = some c ∧ c.schemas.length ≠ 0) := by
  constructor
  · intro o st e h
    cases hf : o.fetchSchemas with
    | error e0 => simp [loadSchema, hf]
    | ok l =>
        cases l with
        | nil => simp [loadSchema, hf] at h
        | cons a t => simp [loadSchema, hf] at h
  · intro st h
    cases hc : st.cache with
    | none => simp [getDatabaseInfo, hc] at h
    | some c =>
        by_cases hl : c.schemas.length = 0
        · simp [getDatabaseInfo, hc, hl] at h
        · exact ⟨c, rfl, hl⟩

/-- Witness for C6: a failing crawl against a populated cache leaves it
intact, and that populated cache is found with a non-empty snapshot. -/
theorem C6_failed_refresh_cache_intact_witness :
    (loadSchema oracleC6 populatedManagerState).1 = populatedManagerState ∧
    (∃ c : DatabaseInfo, populatedManagerState.cache = some c ∧ c.schemas.length ≠ 0) :=
  ⟨C6_failed_refresh_cache_intact.1 oracleC6 populatedManagerState
      ("获取 Schema 列表失败: " ++ "boom") (by decide),
   C6_failed_refresh_cache_intact.2 populatedManagerState (by decide)⟩

/-- Claim C9: a successful crawl that enumerates zero schemas returns no
error, publishes an empty snapshot, and `GetDatabaseInfo` then answers
`(nil, false)` exactly as against the never-populated initial cache. -/
theorem C9_empty_crawl_indistinguishable (o : CrawlOracle) (st : ManagerState)
    (h : o.fetchSchemas = Except.ok []) :
    (loadSchema o st).2.1 = Except.ok () ∧
    (loadSchema o st).1.cache = some ⟨[]⟩ ∧
    getDatabaseInfo (loadSchema o st).1 = (none, false) ∧
    getDatabaseInfo initialManagerState = (none, false) := by
  simp [loadSchema, h, getDatabaseInfo, initialManagerState]

/-- Witness for C9 at a concrete schema-less crawl. -/
theorem C9_empty_crawl_indistinguishable_witness :
    (loadSchema oracleC9 populatedManagerState).2.1 = Except.ok () ∧
    (loadSchema oracleC9 populatedManagerState).1.cache = some ⟨[]⟩ ∧
    getDatabaseInfo (loadSchema oracleC9 populatedManagerState).1 = (none, false) ∧
    getDatabaseInfo initialManagerState = (none, false) :=
  C9_empty_crawl_indistinguishable oracleC9 populatedManagerState (by decide)

/-- Counterexample to claim C5 as stated: in `oracleC5` the enumeration of
the tables of schema `a` fails, yet `LoadSchema` returns no error — it skips
schema `a` (the `continue` at line 84 of the crawler) and publishes a
snapshot containing only schema `b`, instead of propagating an error. -/
theorem C5_table_enum_failure_counterexample :
    oracleC5.fetchTables "a" = Except.error "x" ∧
    (loadSchema oracleC5 initialManagerState).2.1 = Except.ok () ∧
    (loadSchema oracleC5 initialManagerState).1.cache =
      some ⟨[⟨"b", "", [⟨"t", "", 0, [], [], []⟩]⟩]⟩ := by decide

/-- Claim C5 amended: a schema-enumeration failure aborts `LoadSchema` with
an error and leaves the cache untouched; once schema enumeration succeeds
`LoadSchema` never errors — a table-enumeration failure omits that schema, a
column-fetch failure omits that table, and an index or foreign-key fetch
failure omits only that sub-section (shown on a crawl whose four tables fail
in each mode). -/
theorem C5_failure_policy_amended :
    (∀ (o : CrawlOracle) (st : ManagerState) (e : String), o.fetchSchemas = Except.error e →
        (loadSchema o st).2.1 = Except.error ("获取 Schema 列表失败: " ++ e) ∧
        (loadSchema o st).1 = st) ∧
    (∀ (o : CrawlOracle) (st : ManagerState) (l : List (String × String)),
        o.fetchSchemas = Except.ok l → (loadSchema o st).2.1 = Except.ok ()) ∧
    (loadSchema oracleC5b initialManagerState).1.cache =
      some ⟨[⟨"s", "",
        [⟨"t2", "", 2, [colC5], [], [fkC5]⟩,
         ⟨"t3", "", 3, [colC5], [idxC5], []⟩,
         ⟨"t4", "", 4, [colC5], [idxC5], [fkC5]⟩]⟩]⟩ := by
  refine ⟨?_, ?_, ?_⟩
  · intro o st e h
    simp [loadSchema, h]
  · intro o st l h
    cases l <;> simp [loadSchema, h]
  · decide

/-- Witness for C5 (amended): the two hypotheses discharged at concrete
crawls — a failing schema enumeration and a succeeding one. -/
theorem C5_failure_policy_amended_witness :
    ((loadSchema oracleC6 initialManagerState).2.1 =
        Except.error ("获取 Schema 列表失败: " ++ "boom") ∧
     (loadSchema oracleC6 initialManagerState).1 = initialManagerState) ∧
    (loadSchema oracleC5b initialManagerState).2.1 = Except.ok () :=
  ⟨C5_failure_policy_amended.1 oracleC6 initialManagerState "boom" (by decide),
   C5_failure_policy_amended.2.1 oracleC5b initialManagerState [("s", "")] (by decide)⟩

/-- Counterexample to claim C2 as stated: with two driver columns both named
`a` (`SELECT 1 AS a, 2 AS a`), the successful call returns a one-entry map —
the first column's value is gone and the row is not the two-entry ordered
sequence of field-name→value pairs in driver column order. -/
theorem C2_row_order_counterexample :
    executeQueryInternal ⟨Except.ok (), Except.ok (), Except.ok rowsDup, Except.ok ()⟩ true =
      Except.ok [[("a", GoValue.vInt 2)]] ∧
    rowsDup.fields.zip (rowsDup.rows.headD []) =
      [("a", GoValue.vInt 1), ("a", GoValue.vInt 2)] ∧
    mapLookup [("a", GoValue.vInt 2)] "a" ≠ some (GoValue.vInt 1) ∧
    ([("a", GoValue.vInt 2)] : List (String × GoValue)) ≠
      [("a", GoValue.vInt 1), ("a", GoValue.vInt 2)] := by decide

/-- Claim C2 amended: every successful `ExecuteQuery` call materialises each
row into an unordered field-name→value map in which each name maps to the
value of the last driver column bearing that name; the driver's column order
(and duplicate column names) are not preserved in the returned rows. -/
theorem C2_row_map_amended (rd : RowsData) (h : rd.iterErr = none) :
    rowsToMaps rd = Except.ok (rd.rows.map (rowToMap rd.fields)) ∧
    executeQueryInternal ⟨Except.ok (), Except.ok (), Except.ok rd, Except.ok ()⟩ true =
      Except.ok (rd.rows.map (rowToMap rd.fields)) ∧
    (∀ (values : List GoValue) (k : String),
        mapLookup (rowToMap rd.fields values) k = lastValue (rd.fields.zip values) k) := by
  refine ⟨?_, ?_, ?_⟩
  · simp [rowsToMaps, h]
  · simp [executeQueryInternal, rowsToMaps, h]
  · intro values k
    unfold rowToMap
    rw [foldl_mapInsert_lookup]
    cases lastValue (rd.fields.zip values) k <;> rfl

/-- Witness for C2 (amended) at a concrete one-column result set. -/
theorem C2_row_map_amended_witness :
    rowsToMaps rowsSimple = Except.ok (rowsSimple.rows.map (rowToMap rowsSimple.fields)) ∧
    executeQueryInternal ⟨Except.ok (), Except.ok (), Except.ok rowsSimple, Except.ok ()⟩ true =
      Except.ok (rowsSimple.rows.map (rowToMap rowsSimple.fields)) ∧
    (∀ (values : List GoValue) (k : String),
        mapLookup (rowToMap rowsSimple.fields values) k =
          lastValue (rowsSimple.fields.zip values) k) :=
  C2_row_map_amended rowsSimple (by decide)

/-- Counterexample to claim C7 as stated: already on a minimal successful
crawl, the trace of `LoadSchema` performs a catalog query while the cache's
write lock is held — the lock is not restricted to the snapshot swap. -/
theorem C7_lock_during_query_counterexample :
    queryWhileLocked (loadSchema oracleC7 initialManagerState).2.2 = true := by decide

/-- Claim C7 amended: `LoadSchema` acquires the cache's write lock once at
entry and releases it only at return, so every catalog query of the crawl
(and the snapshot swap) happens while the write lock is held. -/
theorem C7_lock_extent_amended (o : CrawlOracle) (st : ManagerState) :
    ∃ mid : List CrawlEvent,
      (loadSchema o st).2.2 = CrawlEvent.lockAcquire :: mid ++ [CrawlEvent.lockRelease] ∧
      CrawlEvent.dbQuery "fetchSchemas" ∈ mid ∧
      ∀ e ∈ mid, e ≠ CrawlEvent.lockAcquire ∧ e ≠ CrawlEvent.lockRelease := by
  cases hf : o.fetchSchemas with
  | error e0 =>
      refine ⟨[CrawlEvent.dbQuery "fetchSchemas"], by simp [loadSchema, hf], by simp, ?_⟩
      intro e he
      simp at he
      subst he
      exact ⟨by simp, by simp⟩
  | ok l =>
      cases l with
      | nil =>
          refine ⟨[CrawlEvent.dbQuery "fetchSchemas", CrawlEvent.cacheSwap],
            by simp [loadSchema, hf], by simp, ?_⟩
          intro e he
          simp at he
          rcases he with he | he <;> subst he
          · exact ⟨by simp, by simp⟩
          · exact ⟨by simp, by simp⟩
      | cons a t =>
          refine ⟨CrawlEvent.dbQuery "fetchSchemas" ::
              ((((a :: t).map (crawlSchema o)).map (fun r => r.2)).flatten ++
               [CrawlEvent.cacheSwap]), ?_, by simp, ?_⟩
          · simp [loadSchema, hf]
          · intro e he
            rw [List.mem_cons] at he
            rcases he with he | he
            · subst he
              exact ⟨by simp, by simp⟩
            · rw [List.mem_append] at he
              rcases he with he | he
              · rw [List.mem_flatten] at he
                rcases he with ⟨evs, hevs, hel⟩
                rw [List.mem_map] at hevs
                rcases hevs with ⟨r, hr, rfl⟩
                rw [List.mem_map] at hr
                rcases hr with ⟨sch, hsch, rfl⟩
                rcases crawlSchema_events_queries o sch e hel with ⟨n, rfl⟩
                exact ⟨by simp, by simp⟩
              · simp at he
                subst he
                exact ⟨by simp, by simp⟩

set_option maxRecDepth 1000000 in
/-- Counterexample to claim C8 as stated: registering
`postgresql://u:p@host:5432/db` and then `postgresql://u:x@host/db` (same
logical target, so the same UUID) leaves `reverseMap` holding the first
string mapped to the shared identity while `connMap` maps that identity to
the second string — the two maps are not mutually inverse. -/
theorem C8_reverse_map_stale_counterexample :
    mapLookup (runOps initialServiceState
        [RegOp.register "postgresql://u:p@host:5432/db",
         RegOp.register "postgresql://u:x@host/db"]).reverseMap
        "postgresql://u:p@host:5432/db" =
      some "5e5faf0e-897f-52fe-9871-ded547f5c876" ∧
    mapLookup (runOps initialServiceState
        [RegOp.register "postgresql://u:p@host:5432/db",
         RegOp.register "postgresql://u:x@host/db"]).connMap
        "5e5faf0e-897f-52fe-9871-ded547f5c876" =
      some "postgresql://u:x@host/db" ∧
    ("postgresql://u:x@host/db" : String) ≠ "postgresql://u:p@host:5432/db" := by decide

/-- Claim C8 amended: after every finite sequence of `RegisterConnection`,
`DisconnectConnection` and `CloseAll` operations the forward direction holds
— every `connMap` entry `connMap[id] = s` has `reverseMap[s] = id` — while
the backward direction can fail (see the counterexample). -/
theorem C8_forward_invariant_amended (ops : List RegOp) :
    mapsInverseFwd (runOps initialServiceState ops) :=
  mapsInverseFwd_runOps initialServiceState ops mapsInverseFwd_initial

set_option maxRecDepth 1000000 in
/-- Counterexample to claim C1 as stated: registering
`postgresql://u@h/db` yields the identity `idC1`, but after `CloseAll` the
very next `GetPool` with that identity fails with the unknown-connID error
instead of succeeding — `CloseAll` clears `connMap`, so the identity is gone. -/
theorem C1_closeAll_then_getPool_counterexample :
    (registerConnection initialServiceState "postgresql://u@h/db").2 =
      Except.ok "3fa2cb7b-9a34-59be-99de-e06509e5fdd6" ∧
    (getPool (closeAll (registerConnection initialServiceState "postgresql://u@h/db").1).1
        "3fa2cb7b-9a34-59be-99de-e06509e5fdd6").2 =
      Except.error ("未知的 connID: " ++ "3fa2cb7b-9a34-59be-99de-e06509e5fdd6") := by
  decide

/-- Claim C1 amended: after `CloseAll`, `GetPool` with the previously
registered identity fails with `UnknownIdentity`; however the layer is not
permanently poisoned — registering the same connection string again returns
the same identity and state as the first registration, from which `GetPool`
constructs a fresh pool. -/
theorem C1_closeAll_then_getPool_amended (cs : String) (st1 : ServiceState) (i : String)
    (h : registerConnection initialServiceState cs = (st1, Except.ok i)) :
    (getPool (closeAll st1).1 i).2 = Except.error ("未知的 connID: " ++ i) ∧
    registerConnection (closeAll st1).1 cs = (st1, Except.ok i) ∧
    (∃ p : PoolModel, (getPool st1 i).2 = Except.ok p) := by
  have hclose : (closeAll st1).1 = initialServiceState := rfl
  refine ⟨?_, ?_, ?_⟩
  · rw [hclose]
    simp [getPool, initialServiceState, mapLookup]
  · rw [hclose]
    exact h
  · cases hn : normalizeConnectionString cs with
    | error e => simp [registerConnection, hn] at h
    | ok ncs =>
        have hmap : mapLookup initialServiceState.reverseMap ncs = none := rfl
        cases hu : connectionStringToUUID ncs with
        | error e => simp [registerConnection, hn, hmap, hu] at h
        | ok nid =>
            simp [registerConnection, hn, hmap, hu, Prod.mk.injEq] at h
            obtain ⟨hst, hi⟩ := h
            subst hi
            rw [← hst]
            refine ⟨⟨ncs⟩, ?_⟩
            simp [getPool, mapInsert, mapLookup_cons, mapLookup, initialServiceState,
              mapErase]

set_option maxRecDepth 1000000 in
/-- Witness for C1 (amended) at the concrete registration of
`postgresql://u@h/db` from the empty registry. -/
theorem C1_closeAll_then_getPool_amended_witness :
    (getPool (closeAll stC1).1 idC1).2 = Except.error ("未知的 connID: " ++ idC1) ∧
    registerConnection (closeAll stC1).1 "postgresql://u@h/db" = (stC1, Except.ok idC1) ∧
    (∃ p : PoolModel, (getPool stC1 idC1).2 = Except.ok p) :=
  C1_closeAll_then_getPool_amended "postgresql://u@h/db" stC1 idC1 (by decide)

set_option maxRecDepth 1000000 in
/-- Claim C3 evaluated at the spec's own scenario (the failing input):
`register("postgres://u:p@host:5432/db")` followed by
`register("postgres://u:x@host/db")` returns two different identities and
two registry entries, because `ConnectionStringToUUID` only recognises the
`postgresql://` prefix: it prepends it to the already-schemed string, the
mis-parse puts `user:password@host` inside the canonical string's database
component, and the two canonical strings differ. -/
theorem C3_scenario_distinct_identities :
    (registerConnection initialServiceState "postgres://u:p@host:5432/db").2 =
      Except.ok "6bbce347-9ab2-5c4d-9999-4c0228e32de8" ∧
    (registerConnection (registerConnection initialServiceState
        "postgres://u:p@host:5432/db").1 "postgres://u:x@host/db").2 =
      Except.ok "b0b0fc59-d9af-56c9-820f-fe82808fed5a" ∧
    ("6bbce347-9ab2-5c4d-9999-4c0228e32de8" : String) ≠
      "b0b0fc59-d9af-56c9-820f-fe82808fed5a" ∧
    ((registerConnection (registerConnection initialServiceState
        "postgres://u:p@host:5432/db").1 "postgres://u:x@host/db").1).connMap.length = 2 := by
  decide

set_option maxRecDepth 1000000 in
/-- Claim C4 evaluated at the failing input: two `postgres://` connection
strings differing only in password resolve to different identities — the
password leaks into the identity via the mis-parse — while the same pair
spelled with the `postgresql://` scheme resolves identically, matching the
function's own password-excluded intent. -/
theorem C4_password_dependent_identity :
    connectionStringToUUID "postgres://u:p@host:5432/db" =
      Except.ok "6bbce347-9ab2-5c4d-9999-4c0228e32de8" ∧
    connectionStringToUUID "postgres://u:x@host:5432/db" =
      Except.ok "e3c4443e-b3b0-5974-a626-f1c9d179b70c" ∧
    connectionStringToUUID "postgres://u:p@host:5432/db" ≠
      connectionStringToUUID "postgres://u:x@host:5432/db" ∧
    connectionStringToUUID "postgresql://u:p@host:5432/db" =
      connectionStringToUUID "postgresql://u:x@host:5432/db" := by
  decide

end PgMcp
